import Mathlib

/-!
Shallow embedding of the Inkycal orchestrator (`inkycal/main.py`, release
2.0.2).  Pure fragments of the Python class `Inkycal` are translated into
executable Lean functions; filesystem state (digest files, per-module PNG
artifacts) is passed explicitly.  External collaborators (PIL, hashlib md5,
the panel driver, content modules) are modelled as parameters or flags at
their boundary, exactly as the source consumes them.
-/

namespace Inkycal

/-! ## Update loop scheduler (`Inkycal.countdown`) -/

/-- `update_timings = [(60 - int(interval_mins) * updates) for updates in
range(60 // int(interval_mins))][::-1]` from `countdown`. -/
def update_timings (interval_mins : Nat) : List Nat :=
  ((List.range (60 / interval_mins)).map (fun updates => 60 - interval_mins * updates)).reverse

/-- `Inkycal.countdown`: minutes until the next entry of `update_timings`
that is `>= now.minute`, converted to seconds plus the seconds left in the
current minute.  The Python `[0]` indexing raises `IndexError` on an empty
filtered list; that partiality is modelled with `Option`. -/
def countdown (interval_mins minute second : Nat) : Option Nat :=
  match ((update_timings interval_mins).filter (fun t => decide (minute ≤ t))).head? with
  | none => none
  | some b => some ((b - minute) * 60 + (60 - second))

/-! ## Fingerprint gate (`_image_hash`, `_write_image_hash`, `_needs_image_update`) -/

/-- The on-disk store of digest files: path to file content, `none` when the
file does not exist. -/
abbrev FileStore := String → Option String

/-- `_image_hash` applied to a path (the `isinstance(_in, str)` branch):
return the file content, or the empty string when the file is missing
(`FileNotFoundError` leaves `image_bytes = None`, so `""` is returned). -/
def image_hash_file (fs : FileStore) (path : String) : String :=
  match fs path with
  | some content => content
  | none => ""

/-- `_image_hash` applied to an image (the non-`str` branch): md5 hexdigest
of `_in.tobytes()`, or `""` when the byte buffer is empty (falsy).  The md5
function itself is external (`hashlib`), so it is a parameter `digest`. -/
def image_hash_bytes (digest : List Nat → String) (image_bytes : List Nat) : String :=
  if image_bytes = [] then "" else digest image_bytes

/-- `_write_image_hash(path, _in)`: overwrite the file at `path` with the
digest of the image `_in`. -/
def write_image_hash (digest : List Nat → String) (fs : FileStore) (path : String)
    (image_bytes : List Nat) : FileStore :=
  fun q => if q = path then some (image_hash_bytes digest image_bytes) else fs q

/-- The loop body of `_needs_image_update`: `res` starts `False`; for each
`(path, image)` item, compare the stored digest with the fresh digest and,
when they differ, set `res = True` and overwrite the stored digest. -/
def needs_image_update_aux (digest : List Nat → String) (res : Bool) (fs : FileStore) :
    List (String × List Nat) → Bool × FileStore
  | [] => (res, fs)
  | (path, image) :: rest =>
    if image_hash_file fs path ≠ image_hash_bytes digest image then
      needs_image_update_aux digest true (write_image_hash digest fs path image) rest
    else
      needs_image_update_aux digest res fs rest

/-- `Inkycal._needs_image_update` (the `print` calls are side effects with no
bearing on state or result and are omitted). -/
def needs_image_update (digest : List Nat → String) (fs : FileStore)
    (candidates : List (String × List Nat)) : Bool × FileStore :=
  needs_image_update_aux digest false fs candidates

/-- The render decision of `Inkycal.run` (both the colour and the
black-white branch):
`if not self.settings.get('image_hash', False) or self._needs_image_update([...]):
display.render(...)`.  Returns the digest store after the step and whether
`display.render` is reached. -/
def render_gate (digest : List Nat → String) (image_hash_flag : Bool) (fs : FileStore)
    (candidates : List (String × List Nat)) : FileStore × Bool :=
  if image_hash_flag = false then (fs, true)
  else
    let r := needs_image_update digest fs candidates
    (r.2, r.1)

/-! ## Canvas compositor (`Inkycal._assemble`) -/

/-- One plane of `_assemble`.  Each module is `(artifact, section_w,
section_h)`: `artifact` is `some (im_w, im_h)` when the PNG file of this
module and plane exists on disk (with the actual bitmap size), `none` when
`os.path.exists` fails; `(section_w, section_h)` is the declared region size
from the settings.  Returns the final cursor and the paste coordinates of
the modules that were placed.  Python `int((a - b) / 2)` truncates toward
zero, which is `Int.tdiv`. -/
def assemble_plane (cursor : Nat) (placed : List (Int × Int)) :
    List (Option (Nat × Nat) × Nat × Nat) → Nat × List (Int × Int)
  | [] => (cursor, placed)
  | (artifact, section_w, section_h) :: rest =>
    match artifact with
    | none => assemble_plane cursor placed rest
    | some (im_w, im_h) =>
      let x : Int := Int.tdiv ((section_w : Int) - (im_w : Int)) 2
      let y : Int :=
        if cursor = 0 then Int.tdiv ((section_h : Int) - (im_h : Int)) 2
        else (cursor : Int) + Int.tdiv ((section_h : Int) - (im_h : Int)) 2
      assemble_plane (cursor + section_h) (placed ++ [(x, y)]) rest

/-! ## Status line of the update loop (`Inkycal.run`, module loop) -/

/-- The token appended to `self.info` for module `number` in `run`:
`f"module {number}: OK  "` on success, `f"module {number}: error!  "` on
failure. -/
def module_token (number : Nat) (ok : Bool) : String :=
  if ok then "module " ++ Nat.repr number ++ ": OK  "
  else "module " ++ Nat.repr number ++ ": error!  "

/-- The `for number in range(1, self._module_number)` loop of `run`
restricted to its effect on `self.info`: one Boolean per module records
whether `module.generate_image()` succeeded. -/
def run_info_aux (info : String) (number : Nat) : List Bool → String
  | [] => info
  | ok :: rest => run_info_aux (info ++ module_token number ok) (number + 1) rest

/-! ## Calibration scheduler (`Inkycal._calibration_check`) -/

/-- `_calibration_check`: if the current hour is in `calibration_hours` and
`_calibration_state == False`, call `self.calibrate()` and set the state to
`True`; otherwise set the state to `False`.  Returns (calibrate fired, new
state). -/
def calibration_check (calibration_hours : List Nat) (hour : Nat) (state : Bool) :
    Bool × Bool :=
  if hour ∈ calibration_hours ∧ state = false then (true, true) else (false, false)

/-- Iterate `_calibration_check` over the hours observed by successive
passes of the update loop, recording on which passes `calibrate` fired. -/
def calibration_fires (calibration_hours : List Nat) (state : Bool) : List Nat → List Bool
  | [] => []
  | h :: rest =>
    let r := calibration_check calibration_hours h state
    r.1 :: calibration_fires calibration_hours r.2 rest

/-! ## Monochrome merge (`Inkycal._merge_bands`) -/

/-- `_merge_bands`: `im1` models the `canvas.png` artifact (`some` when
`os.path.exists(im1_path)`), `im2` models `canvas_colour.png`.  The
alpha-composition `Images.merge` lives in the external module
`inky_image` and is a parameter.  Branch order follows the source: both
exist, then primary without accent, else raise `FileNotFoundError`. -/
def merge_bands {Image : Type} (merge : Image → Image → Image)
    (im1 im2 : Option Image) : Except String Image :=
  match im1, im2 with
  | some a, some b => Except.ok (merge a b)
  | some a, none => Except.ok a
  | none, _ => Except.error "Inkycal cannot find images to merge"

/-! ## Plane normalizer (`Inkycal._optimize_im`) -/

/-- A pixel of the RGB buffer `numpy.array(image.convert('RGB'))`. -/
abbrev Pixel := Nat × Nat × Nat

/-- The elementwise effect of
`buffer[numpy.logical_and(red <= threshold, green <= threshold)] = [0, 0, 0]`:
a pixel whose first two channels are both at or below the threshold becomes
pure black, every other pixel is untouched. -/
def optimize_pixel (threshold : Nat) (p : Pixel) : Pixel :=
  if p.1 ≤ threshold ∧ p.2.1 ≤ threshold then (0, 0, 0) else p

/-- `Inkycal._optimize_im` on the pixel grid (rows of pixels); the source
default threshold is 220. -/
def optimize_im (threshold : Nat) (image : List (List Pixel)) : List (List Pixel) :=
  image.map (fun row => row.map (optimize_pixel threshold))

/-! ## Startup (`Inkycal.__init__`, module loading) -/

/-- One entry of `settings['modules']`: `importable` records whether
`from inkycal.modules import {name}` succeeds, `init_ok` whether the
constructor call `{name}(module)` succeeds. -/
structure ModuleCfg where
  name : String
  importable : Bool
  init_ok : Bool
deriving DecidableEq

/-- The fields of the settings file that `__init__` consumes. -/
structure Settings where
  model : String
  calibration_hours : List Nat
  update_interval : Nat
  modules : List ModuleCfg
deriving DecidableEq

/-- The exceptions `__init__` can raise before the module loop:
`render must be True or False` and `SettingsFileNotFoundError`. -/
inductive InitError where
  | invalidRenderFlag
  | settingsFileNotFound
deriving DecidableEq

/-- The state `__init__` builds that later claims depend on. -/
structure InkycalState where
  render : Bool
  module_number : Nat
  messages : List String
deriving DecidableEq

/-- The `for module in settings['modules']` loop of `__init__`:
`self._module_number` starts at 1 and is incremented only when both
the module import and the constructor succeed; `except ImportError` prints
`Could not find module: ...` and continues; the generic `except` prints the
exception and continues.  No exception escapes the loop. -/
def load_modules (module_number : Nat) : List ModuleCfg → Nat × List String
  | [] => (module_number, [])
  | m :: rest =>
    if m.importable then
      if m.init_ok then
        load_modules (module_number + 1) rest
      else
        let r := load_modules module_number rest
        (r.1, ("module init failed: " ++ m.name) :: r.2)
    else
      let r := load_modules module_number rest
      (r.1, ("Could not find module: " ++ m.name) :: r.2)

/-- `Inkycal.__init__`: validate the `render` argument (`none` models a
value that is neither `True` nor `False`), load the settings file (`none`
models `FileNotFoundError`), then run the module loop.  The `Display`
construction, digest purge and folder creation are external side effects
without influence on the loaded module state. -/
def inkycal_init (render_arg : Option Bool) (settings_file : Option Settings) :
    Except InitError InkycalState :=
  match render_arg with
  | none => Except.error InitError.invalidRenderFlag
  | some render =>
    match settings_file with
    | none => Except.error InitError.settingsFileNotFound
    | some settings =>
      let r := load_modules 1 settings.modules
      Except.ok { render := render, module_number := r.1, messages := r.2 }

/-! ## Helper lemmas -/

/-- Once `res` is `True`, `_needs_image_update` returns `True`. -/
theorem aux_true (digest : List Nat → String) (l : List (String × List Nat)) :
    ∀ fs : FileStore, (needs_image_update_aux digest true fs l).1 = true := by
  induction l with
  | nil => intro fs; rfl
  | cons hd tl ih =>
    intro fs
    obtain ⟨p, img⟩ := hd
    by_cases h : image_hash_file fs p ≠ image_hash_bytes digest img
    · simp only [needs_image_update_aux, if_pos h]; exact ih _
    · simp only [needs_image_update_aux, if_neg h]; exact ih _

/-- When every candidate digest agrees with its stored value, the loop of
`_needs_image_update` changes nothing. -/
theorem aux_all_eq (digest : List Nat → String) (l : List (String × List Nat)) :
    ∀ (res : Bool) (fs : FileStore),
      (∀ p img, (p, img) ∈ l → image_hash_file fs p = image_hash_bytes digest img) →
      needs_image_update_aux digest res fs l = (res, fs) := by
  induction l with
  | nil => intro res fs _; rfl
  | cons hd tl ih =>
    intro res fs h
    obtain ⟨p, img⟩ := hd
    have heq : image_hash_file fs p = image_hash_bytes digest img := h p img (by simp)
    simp only [needs_image_update_aux,
      if_neg (show ¬image_hash_file fs p ≠ image_hash_bytes digest img from fun hne => hne heq)]
    exact ih res fs (fun q jmg hm => h q jmg (List.mem_cons_of_mem _ hm))

/-- A differing candidate forces `_needs_image_update` to return `True`. -/
theorem aux_exists_diff (digest : List Nat → String) (l : List (String × List Nat)) :
    ∀ (res : Bool) (fs : FileStore),
      (∃ p img, (p, img) ∈ l ∧ image_hash_file fs p ≠ image_hash_bytes digest img) →
      (needs_image_update_aux digest res fs l).1 = true := by
  induction l with
  | nil => rintro res fs ⟨p, img, hm, _⟩; simp at hm
  | cons hd tl ih =>
    rintro res fs ⟨p, img, hm, hne⟩
    obtain ⟨p0, img0⟩ := hd
    by_cases h0 : image_hash_file fs p0 ≠ image_hash_bytes digest img0
    · simp only [needs_image_update_aux, if_pos h0]; exact aux_true digest tl _
    · simp only [needs_image_update_aux, if_neg h0]
      rcases List.mem_cons.mp hm with hc | hc
      · injection hc with h1 h2
        subst h1; subst h2
        exact absurd hne h0
      · exact ih res fs ⟨p, img, hc, hne⟩

/-- When `_needs_image_update` returns `False` it performed no write. -/
theorem aux_false_unchanged (digest : List Nat → String) (l : List (String × List Nat)) :
    ∀ (fs : FileStore),
      (needs_image_update_aux digest false fs l).1 = false →
      (needs_image_update_aux digest false fs l).2 = fs := by
  induction l with
  | nil => intro fs _; rfl
  | cons hd tl ih =>
    intro fs h
    obtain ⟨p, img⟩ := hd
    by_cases h0 : image_hash_file fs p ≠ image_hash_bytes digest img
    · exfalso
      have htrue := aux_true digest tl (write_image_hash digest fs p img)
      simp only [needs_image_update_aux, if_pos h0] at h
      rw [h] at htrue
      exact absurd htrue (by decide)
    · simp only [needs_image_update_aux, if_neg h0] at h ⊢
      exact ih fs h

/-- Digest files whose path is not among the candidates are never written. -/
theorem aux_not_mem_unchanged (digest : List Nat → String) (l : List (String × List Nat)) :
    ∀ (res : Bool) (fs : FileStore) (q : String), q ∉ l.map Prod.fst →
      (needs_image_update_aux digest res fs l).2 q = fs q := by
  induction l with
  | nil => intro res fs q _; rfl
  | cons hd tl ih =>
    intro res fs q hq
    obtain ⟨p, img⟩ := hd
    simp only [List.map_cons, List.mem_cons] at hq
    push_neg at hq
    by_cases h0 : image_hash_file fs p ≠ image_hash_bytes digest img
    · simp only [needs_image_update_aux, if_pos h0]
      rw [ih true _ q hq.2]
      simp only [write_image_hash, if_neg hq.1]
    · simp only [needs_image_update_aux, if_neg h0]
      exact ih res fs q hq.2

/-- With pairwise distinct candidate paths, the final content of each
candidate digest file: the fresh digest when it differed, the old content
otherwise. -/
theorem aux_mem_nodup (digest : List Nat → String) (l : List (String × List Nat)) :
    ∀ (res : Bool) (fs : FileStore), (l.map Prod.fst).Nodup →
      ∀ p img, (p, img) ∈ l →
        (needs_image_update_aux digest res fs l).2 p =
          (if image_hash_file fs p ≠ image_hash_bytes digest img
           then some (image_hash_bytes digest img) else fs p) := by
  induction l with
  | nil => intro res fs _ p img hm; simp at hm
  | cons hd tl ih =>
    intro res fs hnd p img hm
    obtain ⟨p0, img0⟩ := hd
    simp only [List.map_cons, List.nodup_cons] at hnd
    rcases List.mem_cons.mp hm with hc | hc
    · injection hc with h1 h2
      subst h1; subst h2
      by_cases h0 : image_hash_file fs p ≠ image_hash_bytes digest img
      · simp only [needs_image_update_aux, if_pos h0]
        rw [aux_not_mem_unchanged digest tl true _ p hnd.1]
        simp [write_image_hash, h0]
      · simp only [needs_image_update_aux, if_neg h0, if_neg h0]
        exact aux_not_mem_unchanged digest tl res fs p hnd.1
    · have hpne : p ≠ p0 := by
        intro hcontra
        apply hnd.1
        rw [← hcontra]
        exact List.mem_map_of_mem Prod.fst hc
      by_cases h0 : image_hash_file fs p0 ≠ image_hash_bytes digest img0
      · simp only [needs_image_update_aux, if_pos h0]
        have hfs : (write_image_hash digest fs p0 img0) p = fs p := by
          simp only [write_image_hash, if_neg hpne]
        have hfile : image_hash_file (write_image_hash digest fs p0 img0) p =
            image_hash_file fs p := by
          simp only [image_hash_file, hfs]
        rw [ih true _ hnd.2 p img hc, hfile, hfs]
      · simp only [needs_image_update_aux, if_neg h0]
        exact ih res fs hnd.2 p img hc

/-- For every divisor of 60 and every minute value, the filtered timing list
of `countdown` is nonempty and its head lies in `[minute, minute + interval]`.
All twelve divisors are checked exhaustively. -/
theorem boundary_head_facts : ∀ i, i < 61 → i ∣ 60 → ∀ m, m < 60 →
    ((((update_timings i).filter (fun t => decide (m ≤ t))).head?.isSome = true)
      ∧ m ≤ (((update_timings i).filter (fun t => decide (m ≤ t))).head?.getD 0)
      ∧ (((update_timings i).filter (fun t => decide (m ≤ t))).head?.getD 0) ≤ m + i) := by
  decide

/-- The tokens of the status line appear in appending order. -/
theorem run_info_aux_append (l : List Bool) :
    ∀ (info : String) (n : Nat), run_info_aux info n l = info ++ run_info_aux "" n l := by
  induction l with
  | nil =>
    intro info n
    show info = info ++ ""
    exact (String.append_empty info).symm
  | cons ok rest ih =>
    intro info n
    show run_info_aux (info ++ module_token n ok) (n + 1) rest =
      info ++ run_info_aux ("" ++ module_token n ok) (n + 1) rest
    rw [ih (info ++ module_token n ok), ih ("" ++ module_token n ok), String.empty_append,
      String.append_assoc]

/-- One application of the two-level reduction per pixel is idempotent. -/
theorem optimize_pixel_idem (t : Nat) (p : Pixel) :
    optimize_pixel t (optimize_pixel t p) = optimize_pixel t p := by
  unfold optimize_pixel
  by_cases h : p.1 ≤ t ∧ p.2.1 ≤ t
  · simp [h]
  · simp [h]

/-- The module counter after the `__init__` loop counts exactly the modules
whose import and construction both succeeded. -/
theorem load_modules_count (mods : List ModuleCfg) :
    ∀ n, (load_modules n mods).1 =
      n + (mods.filter (fun m => m.importable && m.init_ok)).length := by
  induction mods with
  | nil => intro n; simp [load_modules]
  | cons m rest ih =>
    intro n
    by_cases h1 : m.importable
    · by_cases h2 : m.init_ok
      · simp [load_modules, h1, h2, ih]; omega
      · simp [load_modules, h1, h2, ih]
    · simp [load_modules, h1, ih]

/-! ## Claim theorems -/

/-- Claim C1 (code bug): the claim says `calibrate` is invoked at most once
per distinct hour value.  The code resets `_calibration_state` to `False`
whenever the guard fails, including when the hour is still in the due-hours
set: with `calibration_hours = [10]` and three passes during hour 10
starting from the idle state, `calibrate` fires on the first and on the
third pass, two invocations within the same hour. -/
theorem calibration_double_fire_in_hour :
    calibration_fires [10] false [10, 10, 10] = [true, false, true] ∧
      (calibration_fires [10] false [10, 10, 10]).count true = 2 := by decide

/-- Claim C2 (counterexample): the claim says `countdown` returns a value in
`[0, interval_minutes * 60)`.  At interval 20 and current time minute 0,
second 0 it returns 1260 seconds, which is not below `20 * 60 = 1200` (and
lands at minute 21, not on a boundary of the set 0, 20, 40). -/
theorem countdown_exceeds_claimed_range :
    countdown 20 0 0 = some 1260 ∧ ¬ (1260 < 20 * 60) := by decide

/-- Claim C2 (amended): for every `interval_mins` dividing 60 and every
current time, `countdown` returns a duration, and advancing the current
time by that duration lands exactly on second 0 of the minute one past a
boundary of `update_timings` (the minute-marks `interval, 2 * interval,
..., 60`); the scheduler overshoots each boundary by exactly one minute. -/
theorem countdown_lands_after_boundary (i m s : Nat) (hi : i ∣ 60) (hm : m < 60)
    (hs : s < 60) :
    ∃ r b, countdown i m s = some r ∧ b ∈ update_timings i ∧ m ≤ b ∧
      m * 60 + s + r = (b + 1) * 60 := by
  have hle : i ≤ 60 := Nat.le_of_dvd (by norm_num) hi
  obtain ⟨h1, h2, h3⟩ := boundary_head_facts i (by omega) hi m hm
  cases hb : ((update_timings i).filter (fun t => decide (m ≤ t))).head? with
  | none => rw [hb] at h1; simp at h1
  | some b =>
    have hmem : b ∈ (update_timings i).filter (fun t => decide (m ≤ t)) :=
      List.mem_of_mem_head? (by rw [hb]; simp)
    have hmem2 := List.mem_filter.mp hmem
    have hmb : m ≤ b := by have := hmem2.2; simpa using this
    refine ⟨(b - m) * 60 + (60 - s), b, ?_, hmem2.1, hmb, ?_⟩
    · unfold countdown; rw [hb]
    · omega

/-- Witness for `countdown_lands_after_boundary` at interval 15,
time 10:50:42. -/
theorem countdown_lands_after_boundary_witness :
    ∃ r b, countdown 15 50 42 = some r ∧ b ∈ update_timings 15 ∧ 50 ≤ b ∧
      50 * 60 + 42 + r = (b + 1) * 60 :=
  countdown_lands_after_boundary 15 50 42 (by norm_num) (by norm_num) (by norm_num)

/-- Claim C3 (counterexample): the claim says the cumulative cursor after
all modules equals the sum of the declared region heights even for a module
whose artifact is missing.  With two declared regions of heights 100 and 50
and the second artifact missing, `_assemble` leaves the cursor at 100, not
at 150: the `os.path.exists` guard skips the cursor advance together with
the paste. -/
theorem assemble_missing_artifact_no_advance :
    (assemble_plane 0 [] [(some (100, 100), 100, 100), (none, 100, 50)]).1 = 100 ∧
      (assemble_plane 0 [] [(some (100, 100), 100, 100), (none, 100, 50)]).1 ≠ 100 + 50 := by
  decide

/-- Claim C3 (amended): each plane's cumulative cursor after a pass of
`_assemble` equals the sum of the declared region heights of exactly those
modules whose rendered artifact exists on disk, regardless of the actual
bitmap sizes; a module without an artifact does not advance the cursor. -/
theorem assemble_cursor_sum (mods : List (Option (Nat × Nat) × Nat × Nat)) :
    ∀ (cursor : Nat) (placed : List (Int × Int)),
      (assemble_plane cursor placed mods).1 =
        cursor + ((mods.filter (fun m => m.1.isSome)).map (fun m => m.2.2)).sum := by
  induction mods with
  | nil => intro cursor placed; simp [assemble_plane]
  | cons hd tl ih =>
    intro cursor placed
    obtain ⟨art, sw, sh⟩ := hd
    cases art with
    | none =>
      show (assemble_plane cursor placed tl).1 = _
      rw [ih]
      simp
    | some sz =>
      obtain ⟨iw, ihh⟩ := sz
      show (assemble_plane (cursor + sh) _ tl).1 = _
      rw [ih]
      simp
      omega

/-- Claim C4: in the render decision of `run`, a stored digest can change
only when `display.render` is reached in the same pass: whenever the gate
does not reach the driver call, every digest file keeps its previous
content, so the next pass re-attempts the comparison against the stale
value.  (Calibration separately deletes digest files but never marks one
applied.) -/
theorem render_gate_conservative (digest : List Nat → String) (image_hash_flag : Bool)
    (fs : FileStore) (candidates : List (String × List Nat)) :
    (render_gate digest image_hash_flag fs candidates).2 = false →
    ∀ q, (render_gate digest image_hash_flag fs candidates).1 q = fs q := by
  intro h q
  by_cases hf : image_hash_flag = false
  · simp only [render_gate, if_pos hf] at h
    simp at h
  · simp only [render_gate, if_neg hf] at h ⊢
    exact congrFun (aux_false_unchanged digest candidates fs h) q

/-- Witness for `render_gate_conservative`: with the stored digest equal to
the fresh digest the gate skips the refresh and the digest file is
untouched. -/
theorem render_gate_conservative_witness :
    (render_gate (fun _ => "d") true (fun _ => some "d") [("p", [1])]).1 "p" = some "d" := by
  have h := render_gate_conservative (fun _ => "d") true (fun _ => some "d") [("p", [1])]
    (by decide) "p"
  rw [h]

/-- Claim C5: `_needs_image_update` returns `True` exactly when some
candidate's fresh digest differs from the digest stored at its path (a
missing file reading as the empty string); with pairwise distinct candidate
paths it overwrites exactly the differing candidates' digest files with
their fresh digests, and every path outside the candidate list is
untouched. -/
theorem needs_image_update_spec (digest : List Nat → String) (fs : FileStore)
    (candidates : List (String × List Nat)) :
    ((needs_image_update digest fs candidates).1 = true ↔
      ∃ p img, (p, img) ∈ candidates ∧ image_hash_file fs p ≠ image_hash_bytes digest img)
    ∧ ((candidates.map Prod.fst).Nodup →
        ∀ p img, (p, img) ∈ candidates →
          (needs_image_update digest fs candidates).2 p =
            (if image_hash_file fs p ≠ image_hash_bytes digest img
             then some (image_hash_bytes digest img) else fs p))
    ∧ (∀ q, q ∉ candidates.map Prod.fst →
        (needs_image_update digest fs candidates).2 q = fs q) := by
  refine ⟨⟨?_, ?_⟩, ?_, ?_⟩
  · intro h
    by_contra hn
    push_neg at hn
    have hall := aux_all_eq digest candidates false fs hn
    unfold needs_image_update at h
    rw [hall] at h
    simp at h
  · rintro ⟨p, img, hm, hne⟩
    exact aux_exists_diff digest candidates false fs ⟨p, img, hm, hne⟩
  · intro hnd p img hm
    exact aux_mem_nodup digest candidates false fs hnd p img hm
  · intro q hq
    exact aux_not_mem_unchanged digest candidates false fs q hq

/-- Witness for `needs_image_update_spec`: one candidate with no stored
digest yet is detected as changed, its digest file is written, another path
stays absent. -/
theorem needs_image_update_spec_witness :
    (needs_image_update (fun _ => "d") (fun _ => none) [("p", [1])]).1 = true
      ∧ (needs_image_update (fun _ => "d") (fun _ => none) [("p", [1])]).2 "p" = some "d"
      ∧ (needs_image_update (fun _ => "d") (fun _ => none) [("p", [1])]).2 "q" = none := by
  obtain ⟨h1, h2, h3⟩ := needs_image_update_spec (fun _ => "d") (fun _ => none) [("p", [1])]
  refine ⟨?_, ?_, ?_⟩
  · exact h1.mpr ⟨"p", [1], by simp, by decide⟩
  · have hp := h2 (by decide) "p" [1] (by simp)
    rw [hp]
    decide
  · have hq := h3 "q" (by decide)
    rw [hq]

/-- Claim C6 (counterexample): the claim says the update loop appends the
token `module N: Error!` on failure.  The `run` loop appends the lowercase
token `module N: error!  `; the string `module 1: Error!` does not occur in
the status line of a pass whose single module failed, which does not even
contain the character E. -/
theorem run_info_error_lowercase :
    run_info_aux "" 1 [false] = "module 1: error!  " ∧
      'E' ∉ (run_info_aux "" 1 [false]).data := by decide

/-- Claim C6 (amended): for every pass of the update loop and every module
position, the status line contains the appended token of that module:
`module N: OK  ` when its `generate_image` call succeeded and the lowercase
`module N: error!  ` when it failed. -/
theorem run_info_has_token (outcomes : List Bool) :
    ∀ (info : String) (n i : Nat) (h : i < outcomes.length),
      ∃ pre post, run_info_aux info n outcomes = pre ++ module_token (n + i) outcomes[i] ++ post := by
  induction outcomes with
  | nil => intro info n i h; simp at h
  | cons ok rest ih =>
    intro info n i h
    cases i with
    | zero =>
      refine ⟨info, run_info_aux "" (n + 1) rest, ?_⟩
      show run_info_aux (info ++ module_token n ok) (n + 1) rest = _
      rw [run_info_aux_append rest]
      simp [String.append_assoc]
    | succ j =>
      have hj : j < rest.length := by simpa using h
      obtain ⟨pre, post, hp⟩ := ih (info ++ module_token n ok) (n + 1) j hj
      refine ⟨pre, post, ?_⟩
      show run_info_aux (info ++ module_token n ok) (n + 1) rest = _
      rw [hp]
      have harith : n + 1 + j = n + (j + 1) := by omega
      rw [harith]
      simp

/-- Witness for `run_info_has_token`: in a pass whose second module failed,
the status line carries the token of module 2. -/
theorem run_info_has_token_witness :
    ∃ pre post, run_info_aux "" 1 [true, false] = pre ++ module_token (1 + 1) false ++ post := by
  have h := run_info_has_token [true, false] "" 1 1 (by decide)
  simpa using h

/-- Claim C7 (counterexample): the claim says initialization fails before
the loop when a configured module name cannot be imported.  `__init__`
catches `ImportError`, prints a message and continues: with a single
unresolvable module the constructor completes normally and the module is
simply not registered. -/
theorem inkycal_init_ok_with_unknown_module :
    inkycal_init (some false)
        (some { model := "epd_7_in_5_colour", calibration_hours := [0], update_interval := 60,
                modules := [{ name := "ghost", importable := false, init_ok := true }] }) =
      Except.ok { render := false, module_number := 1,
                  messages := ["Could not find module: ghost"] } := by rfl

/-- Claim C7 (amended): a module whose import or construction fails never
makes `__init__` fail: with a valid render flag and a readable settings
file, initialization always completes, and the registered module count is
one plus the number of modules whose import and construction both
succeeded (the failing ones are skipped with a printed message). -/
theorem inkycal_init_skips_bad_modules (r : Bool) (s : Settings) :
    ∃ st, inkycal_init (some r) (some s) = Except.ok st ∧
      st.module_number = 1 + (s.modules.filter (fun m => m.importable && m.init_ok)).length := by
  refine ⟨_, rfl, ?_⟩
  simp [load_modules_count]

/-- Claim C8 (counterexample): the claim says `_merge_bands` raises only
when neither artifact exists.  When the primary `canvas.png` is missing but
the accent `canvas_colour.png` exists, the `else` branch still raises
`FileNotFoundError`. -/
theorem merge_bands_error_with_accent_present :
    merge_bands (fun (a _ : Nat) => a) none (some 7) =
      Except.error "Inkycal cannot find images to merge" := rfl

/-- Claim C8 (amended): `_merge_bands` raises the no-images-to-merge
condition exactly when the primary artifact is missing, regardless of the
accent artifact; when the primary exists it returns the alpha-composited
merge if the accent also exists and the primary alone otherwise. -/
theorem merge_bands_spec {Image : Type} (merge : Image → Image → Image)
    (im1 im2 : Option Image) :
    ((∃ e, merge_bands merge im1 im2 = Except.error e) ↔ im1 = none)
    ∧ (∀ a b, im1 = some a → im2 = some b → merge_bands merge im1 im2 = Except.ok (merge a b))
    ∧ (∀ a, im1 = some a → im2 = none → merge_bands merge im1 im2 = Except.ok a) := by
  cases im1 <;> cases im2 <;> simp [merge_bands]

/-- Witness for `merge_bands_spec`: both artifacts present yields the
composited image. -/
theorem merge_bands_spec_witness :
    merge_bands (fun (a b : Nat) => a + b) (some 2) (some 3) = Except.ok 5 :=
  (merge_bands_spec (fun (a b : Nat) => a + b) (some 2) (some 3)).2.1 2 3 rfl rfl

/-- Claim C9: the two-level reduction `_optimize_im` is idempotent at the
default threshold 220: applying it twice yields the same pixel buffer as
applying it once (a pixel forced to pure black still satisfies the
threshold test and is forced to black again; any other pixel is untouched
both times). -/
theorem optimize_im_idempotent (image : List (List Pixel)) :
    optimize_im 220 (optimize_im 220 image) = optimize_im 220 image := by
  unfold optimize_im
  rw [List.map_map]
  have hrow : ((fun row : List Pixel => row.map (optimize_pixel 220)) ∘
      (fun row : List Pixel => row.map (optimize_pixel 220))) =
      (fun row : List Pixel => row.map (optimize_pixel 220)) := by
    funext row
    show (row.map (optimize_pixel 220)).map (optimize_pixel 220) = _
    rw [List.map_map]
    have hpix : (optimize_pixel 220 ∘ optimize_pixel 220) = optimize_pixel 220 := by
      funext p
      exact optimize_pixel_idem 220 p
    rw [hpix]
  rw [hrow]

/-- Claim C10: for every interval dividing 60 and every current time,
`countdown` returns an integer number of seconds in
`[1, interval * 60 + 60]`; in particular the result is strictly positive,
so `run` always sleeps at least one second between passes. -/
theorem countdown_positive_and_bounded (i m s : Nat) (hi : i ∣ 60) (hm : m < 60)
    (hs : s < 60) :
    ∃ r, countdown i m s = some r ∧ 1 ≤ r ∧ r ≤ i * 60 + 60 := by
  have hle : i ≤ 60 := Nat.le_of_dvd (by norm_num) hi
  obtain ⟨h1, h2, h3⟩ := boundary_head_facts i (by omega) hi m hm
  cases hb : ((update_timings i).filter (fun t => decide (m ≤ t))).head? with
  | none => rw [hb] at h1; simp at h1
  | some b =>
    rw [hb] at h2 h3
    simp only [Option.getD_some] at h2 h3
    refine ⟨(b - m) * 60 + (60 - s), ?_, ?_, ?_⟩
    · unfold countdown; rw [hb]
    · omega
    · omega

/-- Witness for `countdown_positive_and_bounded` at interval 20,
time 12:30:15. -/
theorem countdown_positive_and_bounded_witness :
    ∃ r, countdown 20 30 15 = some r ∧ 1 ≤ r ∧ r ≤ 20 * 60 + 60 :=
  countdown_positive_and_bounded 20 30 15 (by norm_num) (by norm_num) (by norm_num)

end Inkycal
